import Mathlib

set_option autoImplicit false

/-!
Shallow embedding of the exchange (auction) approval program from
`src/exchange/contracts.py` (PyTeal).  Each on-ledger invocation handler
(`on_create`, `on_setup`, `on_bid`, `on_delete`) is embedded as a function
returning `Option`: `none` models rejection of the whole atomic transaction
group (an `Assert` failure, a `Reject()`, or an AVM panic such as uint64
subtraction underflow or an out-of-range `Gtxn` access), in which case the
ledger commits nothing; `some` carries the next global state and the list of
inner transactions ("effects") the contract submits.

Persisted-state field names follow the contract's global-state keys
(`seller`, `stock_id`, `start`, `end`, `reserve_amount`, `min_bid_inc`,
`num_bids`, `bid_amount`, `bid_account`).  Addresses are modelled as `Nat`,
with `0` playing the role of `Global.zero_address()`.
-/

namespace Exchange

/-- Ledger addresses; `0` is the all-zero sentinel address. -/
abbrev Addr := Nat

/-- `Global.zero_address()`. -/
def zero_address : Addr := 0

/-- Transaction `type_enum` values the program inspects. -/
inductive TxnType where
  | payment
  | assetTransfer
  | applicationCall
  | other
deriving DecidableEq

/-- One transaction of an atomic group, restricted to the fields the approval
program reads through `Gtxn[i]`. -/
structure Txn where
  type_enum : TxnType
  sender : Addr
  receiver : Addr
  amount : Nat
deriving DecidableEq

/-- The ledger-level globals the program reads: `Global.latest_timestamp()`,
`Global.min_txn_fee()`, `Global.current_application_address()` and
`Global.creator_address()`. -/
structure Env where
  latest_timestamp : Nat
  min_txn_fee : Nat
  current_application_address : Addr
  creator_address : Addr
deriving DecidableEq

/-- The contract's global state: 7 uint fields and 2 byte-slice fields, named
after the keys used in `approval_program`.  `num_bids` and `bid_amount` are
never written by `on_create`; the AVM's `app_global_get` returns `0` for an
unset uint key, so they are modelled as plain `Nat` fields initialised to 0. -/
structure GlobalState where
  seller : Addr
  stock_id : Nat
  start_time : Nat
  end_time : Nat
  reserve_amount : Nat
  min_bid_inc : Nat
  num_bids : Nat
  bid_amount : Nat
  bid_account : Addr
deriving DecidableEq

/-- The escrow (application) account as the program observes it:
`opted_in` is `AssetHolding.balance(...).hasValue()`, `asset_balance` its
value, and `algo_balance` is `Balance(Global.current_application_address())`
at the point `closeAccountTo` tests it. -/
structure Escrow where
  opted_in : Bool
  asset_balance : Nat
  algo_balance : Nat
deriving DecidableEq

/-- Inner transactions the contract submits. -/
inductive Effect where
  | payment (receiver : Addr) (amount : Nat)
  | assetOptIn (assetID : Nat)
  | assetCloseTo (assetID : Nat) (account : Addr)
  | closeRemainderTo (account : Addr)
deriving DecidableEq

/-- Subroutine `closeStockTo`: if the escrow holds the asset (the maybe-value
has a value, i.e. the escrow is opted in), submit an asset transfer closing the
entire holding to `account`. -/
def closeStockTo (esc : Escrow) (assetID : Nat) (account : Addr) : List Effect :=
  if esc.opted_in then [Effect.assetCloseTo assetID account] else []

/-- Subroutine `repayPreviousLeadBidder`: an inner payment of
`prevLeadBidAmount - Global.min_txn_fee()` to `prevLeadBidder`.  AVM uint64
subtraction panics on underflow (rejecting the group), hence the `Option`. -/
def repayPreviousLeadBidder (env : Env) (prevLeadBidder : Addr)
    (prevLeadBidAmount : Nat) : Option Effect :=
  if env.min_txn_fee ≤ prevLeadBidAmount then
    some (Effect.payment prevLeadBidder (prevLeadBidAmount - env.min_txn_fee))
  else none

/-- Subroutine `closeAccountTo`: if the escrow's balance is nonzero, submit a
payment closing the remainder to `account`. -/
def closeAccountTo (esc : Escrow) (account : Addr) : List Effect :=
  if esc.algo_balance ≠ 0 then [Effect.closeRemainderTo account] else []

/-- The six application arguments of a create call, after `Btoi` decoding. -/
structure CreateArgs where
  seller : Addr
  stock_id : Nat
  start_time : Nat
  end_time : Nat
  reserve_amount : Nat
  min_bid_inc : Nat
deriving DecidableEq

/-- `on_create`: writes the global state from the arguments, sets
`bid_account` to the zero address, then asserts
`latest_timestamp < start_time ∧ start_time < end_time`.  On rejection the
group is not committed, so no instance state exists (`none`); `num_bids` and
`bid_amount` are left unset, which the AVM reads back as 0. -/
def on_create (env : Env) (args : CreateArgs) : Option GlobalState :=
  if env.latest_timestamp < args.start_time ∧ args.start_time < args.end_time then
    some { seller := args.seller, stock_id := args.stock_id,
           start_time := args.start_time, end_time := args.end_time,
           reserve_amount := args.reserve_amount, min_bid_inc := args.min_bid_inc,
           num_bids := 0, bid_amount := 0, bid_account := zero_address }
  else none

/-- `on_setup`: asserts `latest_timestamp < start_time`, then submits an inner
opt-in of the escrow into the stock asset and approves.  The repeat opt-in
failing when the escrow is already opted in is behaviour of the underlying
asset registry (stated in the source comment and the spec); it is the
`esc.opted_in = false` condition here.  The handler reads nothing from the
transaction group, which is passed only to record that fact. -/
def on_setup (env : Env) (st : GlobalState) (esc : Escrow) (group : List Txn) :
    Option (Escrow × List Effect) :=
  if env.latest_timestamp < st.start_time ∧ esc.opted_in = false then
    some ({ esc with opted_in := true }, [Effect.assetOptIn st.stock_id])
  else none

/-- The conjunction asserted at the start of `on_bid` (lines 107-123): the
escrow is opted into the stock with a positive balance, the exchange window is
open, and the group transaction just before the call is a payment from the
call's sender to the escrow of at least the minimum network fee. -/
def bid_preconditions (env : Env) (st : GlobalState) (esc : Escrow) (pay : Txn)
    (sender : Addr) : Prop :=
  esc.opted_in = true ∧ 0 < esc.asset_balance
    ∧ st.start_time ≤ env.latest_timestamp
    ∧ env.latest_timestamp < st.end_time
    ∧ pay.type_enum = TxnType.payment
    ∧ pay.sender = sender
    ∧ pay.receiver = env.current_application_address
    ∧ env.min_txn_fee ≤ pay.amount

instance (env : Env) (st : GlobalState) (esc : Escrow) (pay : Txn)
    (sender : Addr) : Decidable (bid_preconditions env st esc pay sender) := by
  unfold bid_preconditions
  infer_instance

/-- `on_bid`: the companion transaction is `Gtxn[Txn.group_index() - 1]`;
computing the index underflows (panics) when the call is at group position 0,
and the `Gtxn` access panics when the index is out of range, in either case
rejecting the group.  After the precondition assertions, a payment of at least
`bid_amount + min_bid_inc` is accepted: the previous lead bidder (when
`bid_account` is not the zero address) is repaid through
`repayPreviousLeadBidder`, and `bid_amount`, `bid_account`, `num_bids` are
updated; any smaller payment reaches the trailing `Reject()`. -/
def on_bid (env : Env) (st : GlobalState) (esc : Escrow) (group : List Txn)
    (group_index : Nat) (sender : Addr) : Option (GlobalState × List Effect) :=
  if group_index = 0 then none
  else
    match group[group_index - 1]? with
    | none => none
    | some pay =>
      if bid_preconditions env st esc pay sender then
        if st.bid_amount + st.min_bid_inc ≤ pay.amount then
          if st.bid_account ≠ zero_address then
            match repayPreviousLeadBidder env st.bid_account st.bid_amount with
            | none => none
            | some eff =>
                some ({ st with bid_amount := pay.amount, bid_account := pay.sender,
                                num_bids := st.num_bids + 1 }, [eff])
          else
            some ({ st with bid_amount := pay.amount, bid_account := pay.sender,
                            num_bids := st.num_bids + 1 }, [])
        else none
      else none

/-- `on_delete`: before `start_time` only the seller or the creator may cancel,
returning stock and funds to the seller.  From `end_time` on, the stock is
closed to the lead bidder when one exists and the reserve is met; otherwise it
is closed back to the seller, with the lead bidder (when one exists) repaid
`bid_amount - min_txn_fee`; in either branch the remaining balance is closed
to the seller and the call approves.  In between, the call is rejected. -/
def on_delete (env : Env) (st : GlobalState) (esc : Escrow) (sender : Addr) :
    Option (List Effect) :=
  if env.latest_timestamp < st.start_time then
    if sender = st.seller ∨ sender = env.creator_address then
      some (closeStockTo esc st.stock_id st.seller ++ closeAccountTo esc st.seller)
    else none
  else if st.end_time ≤ env.latest_timestamp then
    if st.bid_account ≠ zero_address then
      if st.reserve_amount ≤ st.bid_amount then
        some (closeStockTo esc st.stock_id st.bid_account
              ++ closeAccountTo esc st.seller)
      else
        match repayPreviousLeadBidder env st.bid_account st.bid_amount with
        | none => none
        | some eff =>
            some (closeStockTo esc st.stock_id st.seller ++ [eff]
                  ++ closeAccountTo esc st.seller)
    else
      some (closeStockTo esc st.stock_id st.seller ++ closeAccountTo esc st.seller)
  else none

/-- One global-state transition of a deployed instance.  `on_setup` does not
touch the global state and `on_delete` destroys the instance, so the only
state-to-state step is an accepted bid.  The minimum fee and the application
and creator addresses are fixed over an instance's lifetime; the timestamp,
the escrow contents and the incoming group vary per step. -/
inductive Step (fee : Nat) (appAddr creator : Addr) :
    GlobalState → GlobalState → Prop where
  | bid (ts : Nat) (esc : Escrow) (group : List Txn) (gi : Nat) (sender : Addr)
      (st st2 : GlobalState) (effs : List Effect)
      (h : on_bid ⟨ts, fee, appAddr, creator⟩ st esc group gi sender
             = some (st2, effs)) :
      Step fee appAddr creator st st2

/-- States of one instance reachable from a successful create through accepted
bids. -/
inductive Reachable (fee : Nat) (appAddr creator : Addr) : GlobalState → Prop where
  | created (ts : Nat) (args : CreateArgs) (st : GlobalState)
      (h : on_create ⟨ts, fee, appAddr, creator⟩ args = some st) :
      Reachable fee appAddr creator st
  | step (st st2 : GlobalState) (h1 : Reachable fee appAddr creator st)
      (h2 : Step fee appAddr creator st st2) : Reachable fee appAddr creator st2

/-- The fee-solvency invariant: whenever a lead bidder is recorded, the stored
lead bid covers at least one minimum network fee. -/
def FeeInv (fee : Nat) (st : GlobalState) : Prop :=
  st.bid_account ≠ zero_address → fee ≤ st.bid_amount

instance (fee : Nat) (st : GlobalState) : Decidable (FeeInv fee st) :=
  if h : st.bid_account = zero_address then isTrue (fun hb => absurd h hb)
  else if h2 : fee ≤ st.bid_amount then isTrue (fun _ => h2)
  else isFalse (fun hf => h2 (hf h))

/- Concrete sample run used by the witnesses: create at time 3, a first bid of
100000 from account 2 at time 15, a second bid of 200000 from account 3. -/

/-- Sample ledger globals at create time: timestamp 3, fee 1000, escrow
address 77, creator 5. -/
def exCreateEnv : Env := ⟨3, 1000, 77, 5⟩

/-- Sample create arguments: seller 1, stock 42, window [10, 20), reserve
1000000, increment 100000. -/
def exArgs : CreateArgs := ⟨1, 42, 10, 20, 1000000, 100000⟩

/-- The freshly created instance state. -/
def exState0 : GlobalState := ⟨1, 42, 10, 20, 1000000, 100000, 0, 0, 0⟩

/-- Sample ledger globals during the bidding window (timestamp 15). -/
def exBidEnv : Env := ⟨15, 1000, 77, 5⟩

/-- Sample escrow after setup: opted in, one stock unit, funded. -/
def exEscrow : Escrow := ⟨true, 1, 303000⟩

/-- First bid's companion payment: 100000 from account 2 to the escrow. -/
def exPay1 : Txn := ⟨TxnType.payment, 2, 77, 100000⟩

/-- First bid group: companion payment then the application call. -/
def exGroup1 : List Txn := [exPay1, ⟨TxnType.applicationCall, 2, 77, 0⟩]

/-- State after the first accepted bid. -/
def exState1 : GlobalState := ⟨1, 42, 10, 20, 1000000, 100000, 1, 100000, 2⟩

/-- Second bid's companion payment: 200000 from account 3 to the escrow. -/
def exPay2 : Txn := ⟨TxnType.payment, 3, 77, 200000⟩

/-- Second bid group. -/
def exGroup2 : List Txn := [exPay2, ⟨TxnType.applicationCall, 3, 77, 0⟩]

/-- State after the second accepted bid. -/
def exState2 : GlobalState := ⟨1, 42, 10, 20, 1000000, 100000, 2, 200000, 3⟩

/-- Sample ledger globals after the exchange ends (timestamp 25). -/
def exEndEnv : Env := ⟨25, 1000, 77, 5⟩

/-- Inversion of a successful bid: everything `on_bid ... = some` implies. -/
theorem on_bid_some_inv (env : Env) (st : GlobalState) (esc : Escrow)
    (group : List Txn) (gi : Nat) (sender : Addr) (st2 : GlobalState)
    (effs : List Effect)
    (h : on_bid env st esc group gi sender = some (st2, effs)) :
    gi ≠ 0 ∧ ∃ pay, group[gi - 1]? = some pay
      ∧ bid_preconditions env st esc pay sender
      ∧ st.bid_amount + st.min_bid_inc ≤ pay.amount
      ∧ st2 = { st with bid_amount := pay.amount, bid_account := pay.sender,
                        num_bids := st.num_bids + 1 }
      ∧ ((st.bid_account = zero_address ∧ effs = [])
        ∨ (st.bid_account ≠ zero_address ∧ env.min_txn_fee ≤ st.bid_amount
           ∧ effs = [Effect.payment st.bid_account
                        (st.bid_amount - env.min_txn_fee)])) := by
  by_cases hgi : gi = 0
  · simp [on_bid, hgi] at h
  cases hget : group[gi - 1]? with
  | none => simp [on_bid, hgi, hget] at h
  | some pay =>
    by_cases hpre : bid_preconditions env st esc pay sender
    · by_cases hthr : st.bid_amount + st.min_bid_inc ≤ pay.amount
      · by_cases hacct : st.bid_account = zero_address
        · simp [on_bid, hgi, hget, hpre, hthr, hacct] at h
          exact ⟨hgi, pay, rfl, hpre, hthr, h.1.symm, Or.inl ⟨hacct, h.2⟩⟩
        · by_cases hfee : env.min_txn_fee ≤ st.bid_amount
          · simp [on_bid, repayPreviousLeadBidder, hgi, hget, hpre, hthr, hacct,
              hfee] at h
            exact ⟨hgi, pay, rfl, hpre, hthr, h.1.symm,
              Or.inr ⟨hacct, hfee, h.2.symm⟩⟩
          · simp [on_bid, repayPreviousLeadBidder, hgi, hget, hpre, hthr, hacct,
              hfee] at h
      · simp [on_bid, hgi, hget, hpre, hthr] at h
    · simp [on_bid, hgi, hget, hpre] at h

/-- Under the asserted preconditions and the fee-solvency invariant, a bid
succeeds exactly when the companion payment meets the inclusive threshold. -/
theorem on_bid_isSome_iff (env : Env) (st : GlobalState) (esc : Escrow)
    (group : List Txn) (gi : Nat) (sender : Addr) (pay : Txn)
    (hgi : gi ≠ 0) (hpay : group[gi - 1]? = some pay)
    (hpre : bid_preconditions env st esc pay sender)
    (hinv : FeeInv env.min_txn_fee st) :
    (on_bid env st esc group gi sender).isSome ↔
      st.bid_amount + st.min_bid_inc ≤ pay.amount := by
  constructor
  · intro hs
    obtain ⟨⟨st2, effs⟩, h⟩ := Option.isSome_iff_exists.mp hs
    obtain ⟨-, pay0, hpay0, -, hthr, -, -⟩ := on_bid_some_inv _ _ _ _ _ _ _ _ h
    rw [hpay] at hpay0
    cases Option.some.inj hpay0
    exact hthr
  · intro hthr
    unfold on_bid
    rw [if_neg hgi]
    simp only [hpay]
    rw [if_pos hpre, if_pos hthr]
    by_cases hacct : st.bid_account = zero_address
    · rw [if_neg (not_not_intro hacct)]
      simp
    · rw [if_pos hacct]
      unfold repayPreviousLeadBidder
      rw [if_pos (hinv hacct)]
      simp

/-- A freshly created instance satisfies the fee-solvency invariant (it has no
lead bidder). -/
theorem on_create_FeeInv (fee : Nat) (env : Env) (args : CreateArgs)
    (st : GlobalState) (h : on_create env args = some st) : FeeInv fee st := by
  unfold on_create at h
  split at h
  · cases h
    intro hb
    exact absurd rfl hb
  · cases h

/-- An accepted bid re-establishes the fee-solvency invariant: the companion
payment is asserted to be at least the minimum fee. -/
theorem on_bid_FeeInv (env : Env) (st : GlobalState) (esc : Escrow)
    (group : List Txn) (gi : Nat) (sender : Addr) (st2 : GlobalState)
    (effs : List Effect)
    (h : on_bid env st esc group gi sender = some (st2, effs)) :
    FeeInv env.min_txn_fee st2 := by
  obtain ⟨-, pay, -, hpre, -, hst2, -⟩ := on_bid_some_inv _ _ _ _ _ _ _ _ h
  subst hst2
  intro hb
  simpa using hpre.2.2.2.2.2.2.2

/-- Every reachable state satisfies the fee-solvency invariant. -/
theorem reachable_FeeInv (fee : Nat) (appAddr creator : Addr) (st : GlobalState)
    (h : Reachable fee appAddr creator st) : FeeInv fee st := by
  induction h with
  | created ts args st h => exact on_create_FeeInv fee _ _ _ h
  | step st st2 h1 h2 ih =>
    cases h2 with
    | bid ts esc group gi sender _ _ effs hb =>
      exact on_bid_FeeInv _ _ _ _ _ _ _ _ hb

/-- C1: with the other bid preconditions holding (escrow set up with a positive
asset balance, open time window, well-formed companion payment) and the
fee-solvency invariant (which `reachable_FeeInv` shows every reachable
instance state satisfies), a bid is accepted iff the payment amount is at
least `bid_amount + min_bid_inc`, with the threshold inclusive; a payment
below the threshold rejects the whole group, committing nothing. -/
theorem bid_accept_iff_threshold (env : Env) (st : GlobalState) (esc : Escrow)
    (group : List Txn) (gi : Nat) (sender : Addr) (pay : Txn)
    (hgi : gi ≠ 0) (hpay : group[gi - 1]? = some pay)
    (hpre : bid_preconditions env st esc pay sender)
    (hinv : FeeInv env.min_txn_fee st) :
    ((on_bid env st esc group gi sender).isSome ↔
      st.bid_amount + st.min_bid_inc ≤ pay.amount)
    ∧ (pay.amount < st.bid_amount + st.min_bid_inc →
        on_bid env st esc group gi sender = none) := by
  have hiff := on_bid_isSome_iff env st esc group gi sender pay hgi hpay hpre hinv
  refine ⟨hiff, fun hlt => ?_⟩
  have hns : ¬ (on_bid env st esc group gi sender).isSome = true := by
    rw [hiff]
    omega
  exact Option.not_isSome_iff_eq_none.mp hns

/-- C1 witness: the sample first bid of exactly `bid_amount + min_bid_inc`
(0 + 100000) hits the inclusive threshold and is accepted. -/
theorem bid_accept_iff_threshold_witness :
    ((on_bid exBidEnv exState0 exEscrow exGroup1 1 2).isSome ↔
      exState0.bid_amount + exState0.min_bid_inc ≤ exPay1.amount)
    ∧ exPay1.amount = exState0.bid_amount + exState0.min_bid_inc :=
  ⟨(bid_accept_iff_threshold exBidEnv exState0 exEscrow exGroup1 1 2 exPay1
      (by decide) (by decide) (by decide) (by decide)).1, by decide⟩

/-- C2: an accepted bid over an existing lead bidder emits exactly one inner
payment, of `bid_amount - min_txn_fee`, to the previous lead bidder, and in
the same invocation stores the new payment amount, the new bidder and an
incremented `num_bids`. -/
theorem bid_accept_refunds_previous (env : Env) (st : GlobalState) (esc : Escrow)
    (group : List Txn) (gi : Nat) (sender : Addr) (pay : Txn) (st2 : GlobalState)
    (effs : List Effect) (hpay : group[gi - 1]? = some pay)
    (hprev : st.bid_account ≠ zero_address)
    (h : on_bid env st esc group gi sender = some (st2, effs)) :
    env.min_txn_fee ≤ st.bid_amount
    ∧ effs = [Effect.payment st.bid_account (st.bid_amount - env.min_txn_fee)]
    ∧ st2.bid_amount = pay.amount
    ∧ st2.bid_account = sender
    ∧ st2.num_bids = st.num_bids + 1 := by
  obtain ⟨-, pay0, hpay0, hpre, -, hst2, hcase⟩ := on_bid_some_inv _ _ _ _ _ _ _ _ h
  rw [hpay] at hpay0
  cases Option.some.inj hpay0
  rcases hcase with ⟨h0, -⟩ | ⟨-, hfee, heff⟩
  · exact absurd h0 hprev
  · subst hst2
    exact ⟨hfee, heff, rfl, hpre.2.2.2.2.2.1, rfl⟩

/-- C2 witness: the sample second bid (200000 from account 3 over account 2's
100000) refunds 99000 to account 2 and updates the three fields. -/
theorem bid_accept_refunds_previous_witness :
    exBidEnv.min_txn_fee ≤ exState1.bid_amount
    ∧ [Effect.payment 2 99000]
        = [Effect.payment exState1.bid_account
            (exState1.bid_amount - exBidEnv.min_txn_fee)]
    ∧ exState2.bid_amount = exPay2.amount
    ∧ exState2.bid_account = 3
    ∧ exState2.num_bids = exState1.num_bids + 1 :=
  bid_accept_refunds_previous exBidEnv exState1 exEscrow exGroup2 1 3 exPay2
    exState2 [Effect.payment 2 99000] (by decide) (by decide) (by decide)

/-- C3: a delete at or after `end_time` (on an instance whose window is
well-formed, with the escrow opted in and carrying a nonzero balance, and
satisfying the fee-solvency invariant) approves in every sub-case: the stock
is closed out to the lead bidder when one exists and the reserve is met, and
otherwise back to the seller with the lead bidder (if any) refunded
`bid_amount - min_txn_fee`; in each sub-case the remaining balance is closed
out to the seller. -/
theorem delete_settlement_cases (env : Env) (st : GlobalState) (esc : Escrow)
    (sender : Addr) (hw : st.start_time < st.end_time)
    (hend : st.end_time ≤ env.latest_timestamp)
    (hopt : esc.opted_in = true) (hbal : esc.algo_balance ≠ 0)
    (hinv : FeeInv env.min_txn_fee st) :
    (st.bid_account ≠ zero_address → st.reserve_amount ≤ st.bid_amount →
        on_delete env st esc sender
          = some [Effect.assetCloseTo st.stock_id st.bid_account,
                  Effect.closeRemainderTo st.seller])
    ∧ (st.bid_account ≠ zero_address → st.bid_amount < st.reserve_amount →
        on_delete env st esc sender
          = some [Effect.assetCloseTo st.stock_id st.seller,
                  Effect.payment st.bid_account (st.bid_amount - env.min_txn_fee),
                  Effect.closeRemainderTo st.seller])
    ∧ (st.bid_account = zero_address →
        on_delete env st esc sender
          = some [Effect.assetCloseTo st.stock_id st.seller,
                  Effect.closeRemainderTo st.seller]) := by
  have hns : ¬ env.latest_timestamp < st.start_time := by omega
  refine ⟨fun hb hr => ?_, fun hb hr => ?_, fun hb => ?_⟩
  · simp [on_delete, closeStockTo, closeAccountTo, hns, hend, hopt, hbal, hb, hr]
  · simp [on_delete, closeStockTo, closeAccountTo, repayPreviousLeadBidder,
      hns, hend, hopt, hbal, hb, hinv hb, Nat.not_le.mpr hr]
  · simp [on_delete, closeStockTo, closeAccountTo, hns, hend, hopt, hbal, hb]

/-- C3 witness: closing the sample instance after `end_time` with lead bid
200000 below the reserve 1000000 returns the stock to the seller, refunds
199000 to the bidder, and sweeps the balance to the seller. -/
theorem delete_settlement_cases_witness :
    on_delete exEndEnv exState2 exEscrow 9
      = some [Effect.assetCloseTo exState2.stock_id exState2.seller,
              Effect.payment exState2.bid_account
                (exState2.bid_amount - exEndEnv.min_txn_fee),
              Effect.closeRemainderTo exState2.seller] :=
  (delete_settlement_cases exEndEnv exState2 exEscrow 9 (by decide) (by decide)
      (by decide) (by decide) (by decide)).2.1 (by decide) (by decide)

/-- C4: across the instance step relation (whose only state-changing step is
an accepted bid), `bid_amount` never decreases. -/
theorem lead_bid_monotone (fee : Nat) (appAddr creator : Addr)
    (st st2 : GlobalState) (hr : Reachable fee appAddr creator st)
    (hs : Step fee appAddr creator st st2) :
    st.bid_amount ≤ st2.bid_amount := by
  cases hs with
  | bid ts esc group gi sender _ _ effs h =>
    obtain ⟨-, pay, -, -, hthr, hst2, -⟩ := on_bid_some_inv _ _ _ _ _ _ _ _ h
    subst hst2
    simpa using le_trans (Nat.le_add_right _ _) hthr

/-- C4 witness: the sample create followed by the first accepted bid raises
`bid_amount` from 0 to 100000. -/
theorem lead_bid_monotone_witness : exState0.bid_amount ≤ exState1.bid_amount :=
  lead_bid_monotone 1000 77 5 exState0 exState1
    (Reachable.created 3 exArgs exState0 (by decide))
    (Step.bid 15 exEscrow exGroup1 1 2 exState0 exState1 [] (by decide))

/-- C5: a create call succeeds iff `latest_timestamp < start_time` and
`start_time < end_time`; otherwise it is rejected and no instance state
exists. -/
theorem create_accept_iff (env : Env) (args : CreateArgs) :
    (on_create env args).isSome ↔
      env.latest_timestamp < args.start_time ∧ args.start_time < args.end_time := by
  unfold on_create
  split <;> simp_all

/-- C6: a bid before `start_time` is always rejected, and any accepted bid has
a companion transaction at the immediately preceding group position that is a
payment, from the call's sender, to the escrow address, of at least the
minimum network fee. -/
theorem bid_reject_conditions (env : Env) (st : GlobalState) (esc : Escrow)
    (group : List Txn) (gi : Nat) (sender : Addr) :
    (env.latest_timestamp < st.start_time →
        on_bid env st esc group gi sender = none)
    ∧ (∀ st2 effs, on_bid env st esc group gi sender = some (st2, effs) →
        gi ≠ 0 ∧ ∃ pay, group[gi - 1]? = some pay
          ∧ pay.type_enum = TxnType.payment ∧ pay.sender = sender
          ∧ pay.receiver = env.current_application_address
          ∧ env.min_txn_fee ≤ pay.amount) := by
  constructor
  · intro hts
    cases hres : on_bid env st esc group gi sender with
    | none => rfl
    | some r =>
      obtain ⟨-, pay, -, hpre, -, -, -⟩ := on_bid_some_inv _ _ _ _ _ _ r.1 r.2
        (by rw [hres])
      exact absurd hpre.2.2.1 (by omega)
  · intro st2 effs h
    obtain ⟨hgi, pay, hpay, hpre, -, -, -⟩ := on_bid_some_inv _ _ _ _ _ _ _ _ h
    exact ⟨hgi, pay, hpay, hpre.2.2.2.2.1, hpre.2.2.2.2.2.1,
      hpre.2.2.2.2.2.2.1, hpre.2.2.2.2.2.2.2⟩

/-- C6 witness: the sample first bid submitted at timestamp 7, before the
start time 10, is rejected. -/
theorem bid_reject_conditions_witness :
    on_bid ⟨7, 1000, 77, 5⟩ exState0 exEscrow exGroup1 1 2 = none :=
  (bid_reject_conditions ⟨7, 1000, 77, 5⟩ exState0 exEscrow exGroup1 1 2).1
    (by decide)

/-- C7 counterexample: a setup call evaluated against a group holding two
application calls is nonetheless approved (before `start_time`, escrow not yet
opted in) — the handler never inspects the group, so the claim that such a
group is rejected is false. -/
theorem setup_sole_appcall_cex :
    (on_setup exCreateEnv exState0 ⟨false, 0, 203000⟩
        [⟨TxnType.applicationCall, 5, 77, 0⟩,
         ⟨TxnType.applicationCall, 6, 77, 0⟩]).isSome := by
  decide

/-- C7 (amended): `on_setup` performs no validation of the transaction group —
its outcome is the same for any two groups — and it succeeds iff
`latest_timestamp < start_time` and the escrow is not already opted in. -/
theorem setup_ignores_group (env : Env) (st : GlobalState) (esc : Escrow)
    (group1 group2 : List Txn) :
    on_setup env st esc group1 = on_setup env st esc group2
    ∧ ((on_setup env st esc group1).isSome ↔
        env.latest_timestamp < st.start_time ∧ esc.opted_in = false) := by
  refine ⟨rfl, ?_⟩
  unfold on_setup
  split <;> simp_all

/-- C8: a successful create initializes the global state exactly: the six
argument fields, `bid_account` the zero-address sentinel, `num_bids` 0 (and
`bid_amount` 0). -/
theorem create_initial_state (env : Env) (args : CreateArgs) (st : GlobalState)
    (h : on_create env args = some st) :
    st = { seller := args.seller, stock_id := args.stock_id,
           start_time := args.start_time, end_time := args.end_time,
           reserve_amount := args.reserve_amount, min_bid_inc := args.min_bid_inc,
           num_bids := 0, bid_amount := 0, bid_account := zero_address } := by
  unfold on_create at h
  split at h
  · exact (Option.some.inj h).symm
  · cases h

/-- C8 witness: the sample create produces exactly the expected record. -/
theorem create_initial_state_witness :
    exState0 = { seller := exArgs.seller, stock_id := exArgs.stock_id,
                 start_time := exArgs.start_time, end_time := exArgs.end_time,
                 reserve_amount := exArgs.reserve_amount,
                 min_bid_inc := exArgs.min_bid_inc,
                 num_bids := 0, bid_amount := 0, bid_account := zero_address } :=
  create_initial_state exCreateEnv exArgs exState0 (by decide)

/-- C9: a first bid (no lead bidder recorded, `bid_amount` 0) is accepted iff
the payment is at least `min_bid_inc`, and the acceptance decision is
unchanged under any value of `reserve_amount` — the reserve plays no role in
`on_bid`. -/
theorem first_bid_ignores_reserve (env : Env) (st : GlobalState) (esc : Escrow)
    (group : List Txn) (gi : Nat) (sender : Addr) (pay : Txn)
    (hgi : gi ≠ 0) (hpay : group[gi - 1]? = some pay)
    (hpre : bid_preconditions env st esc pay sender)
    (hfirst : st.bid_account = zero_address) (hamt : st.bid_amount = 0) :
    ((on_bid env st esc group gi sender).isSome ↔ st.min_bid_inc ≤ pay.amount)
    ∧ ∀ r, ((on_bid env { st with reserve_amount := r } esc group gi
          sender).isSome
        ↔ (on_bid env st esc group gi sender).isSome) := by
  have hinv : FeeInv env.min_txn_fee st := fun hb => absurd hfirst hb
  have h1 := on_bid_isSome_iff env st esc group gi sender pay hgi hpay hpre hinv
  rw [hamt, Nat.zero_add] at h1
  refine ⟨h1, fun r => ?_⟩
  have hinv2 : FeeInv env.min_txn_fee { st with reserve_amount := r } :=
    fun hb => absurd hfirst hb
  have h2 := on_bid_isSome_iff env { st with reserve_amount := r } esc group gi
    sender pay hgi hpay hpre hinv2
  exact h2.trans (on_bid_isSome_iff env st esc group gi sender pay hgi hpay hpre
    hinv).symm

/-- C9 witness: the sample first bid of 100000 — strictly below the reserve
1000000 — is accepted, the reserve being ignored by `on_bid`. -/
theorem first_bid_ignores_reserve_witness :
    ((on_bid exBidEnv exState0 exEscrow exGroup1 1 2).isSome ↔
      exState0.min_bid_inc ≤ exPay1.amount)
    ∧ exPay1.amount < exState0.reserve_amount :=
  ⟨(first_bid_ignores_reserve exBidEnv exState0 exEscrow exGroup1 1 2 exPay1
      (by decide) (by decide) (by decide) (by decide) (by decide)).1, by decide⟩

/-- C10: in every reachable state with a lead bidder, the stored `bid_amount`
is at least one minimum network fee, so the refund subtraction
`bid_amount - min_txn_fee` in `repayPreviousLeadBidder` never underflows
(never panics). -/
theorem reachable_refund_no_underflow (fee : Nat) (appAddr creator : Addr)
    (st : GlobalState) (h : Reachable fee appAddr creator st)
    (hb : st.bid_account ≠ zero_address) :
    fee ≤ st.bid_amount
    ∧ ∀ env : Env, env.min_txn_fee = fee →
        (repayPreviousLeadBidder env st.bid_account st.bid_amount).isSome := by
  have hf := reachable_FeeInv fee appAddr creator st h hb
  refine ⟨hf, fun env he => ?_⟩
  unfold repayPreviousLeadBidder
  rw [if_pos (he ▸ hf)]
  rfl

/-- C10 witness: after the sample create and first accepted bid, the recorded
lead bid 100000 covers the fee 1000. -/
theorem reachable_refund_no_underflow_witness : 1000 ≤ exState1.bid_amount :=
  (reachable_refund_no_underflow 1000 77 5 exState1
    (Reachable.step exState0 exState1
      (Reachable.created 3 exArgs exState0 (by decide))
      (Step.bid 15 exEscrow exGroup1 1 2 exState0 exState1 [] (by decide)))
    (by decide)).1

end Exchange
